import Mathlib

/-!
Verification of the openAcademy module (`src/models/models.py`).

Shallow embedding conventions:
* Dates (`fields.Date`) are day numbers `Int`; an unset date is `none`.
* Datetimes (`datetime` values produced by `fields.Datetime.from_string`)
  are points on the time line measured in seconds, as `ℚ`.
* Python floats are modelled exactly as `ℚ`.
* Odoo truthiness: an `Integer`/`Float` field is falsy exactly when it is `0`,
  a `Date` field is falsy exactly when it is unset (`none`), a `Many2one`
  is falsy exactly when it is empty (`none`).
* `ValidationError` and SQL constraint violations are `Except.error` with the
  declared human-readable message.
-/

namespace OpenAcademy

/-- A `res.partner` id. -/
abbrev PartnerId := Nat

/-- The fields of an `openacademy.session` record. -/
structure Session where
  name : String
  start_date : Option Int
  duration : ℚ
  seats : Int
  active : Bool
  color : Int
  instructor_id : Option PartnerId
  course_id : Nat
  attendee_ids : Finset PartnerId
  end_date : Option Int
deriving DecidableEq

/-- Odoo's `fields.Datetime.from_string` applied to a stored date: midnight of that
day, in seconds on the time line. -/
def dateToDatetime (d : Int) : ℚ := (d : ℚ) * 86400

/-- Assigning a `datetime` value to a `fields.Date` column keeps only its
calendar date, i.e. the day the time point falls in. -/
def datetimeToDate (t : ℚ) : Int := ⌊t / 86400⌋

/-- Python `timedelta(days=days, seconds=seconds)`, in seconds. -/
def timedelta (days seconds : ℚ) : ℚ := days * 86400 + seconds

/-- Model of `Session._get_end_date`: the guard `not (r.start_date and r.duration)`
is Python falsiness, so it fires when the date is unset or the duration is
zero, and then `end_date = start_date`.  Otherwise
`end_date = from_string(start_date) + timedelta(days=duration, seconds=-1)`,
truncated to a date. -/
def get_end_date (r : Session) : Option Int :=
  match r.start_date with
  | none => none
  | some sd =>
      if r.duration = 0 then some sd
      else some (datetimeToDate (dateToDatetime sd + timedelta r.duration (-1)))

/-- Model of `Session._set_end_date`: with both bounds set,
`duration = (end_date - start_date).days + 1`; both bounds parse to
midnights, so the difference is the exact whole number of days between
the two dates.  With either bound falsy the record is left unchanged. -/
def set_end_date (r : Session) : Session :=
  match r.start_date, r.end_date with
  | some sd, some ed => { r with duration := ((ed - sd : Int) : ℚ) + 1 }
  | _, _ => r

/-- Writing `duration = d`: the stored compute of `end_date` re-runs. -/
def write_duration (r : Session) (d : ℚ) : Session :=
  let r1 := { r with duration := d }
  { r1 with end_date := get_end_date r1 }

/-- The spec's round trip: set `duration = d`, read the recomputed
`end_date`, write that same `end_date` back (which triggers
`_set_end_date`), and read `duration` again. -/
def duration_round_trip (r : Session) (d : ℚ) : ℚ :=
  (set_end_date (write_duration r d)).duration

/-- Model of `Session._get_hours`: `hours = duration * 24`. -/
def get_hours (r : Session) : ℚ := r.duration * 24

/-- Model of `Session._set_hours`: writing `hours = h` sets `duration = h / 24`. -/
def set_hours (r : Session) (h : ℚ) : Session := { r with duration := h / 24 }

/-- Model of `Session._get_attendees_count`: `len(r.attendee_ids)`. -/
def get_attendees_count (r : Session) : Nat := r.attendee_ids.card

/-- Model of `Session._taken_seats`: `0.0` when `record.seats` is falsy (i.e. `0`),
otherwise `100.0 * len(record.attendee_ids) / record.seats`. -/
def taken_seats (r : Session) : ℚ :=
  if r.seats = 0 then 0
  else 100 * (get_attendees_count r : ℚ) / (r.seats : ℚ)

/-- Model of `Session._check_instructor_not_in_attendees`: raises a
`ValidationError` when the instructor is set and is among the attendees. -/
def check_instructor_not_in_attendees (r : Session) : Except String Unit :=
  match r.instructor_id with
  | none => Except.ok ()
  | some i =>
      if i ∈ r.attendee_ids then
        Except.error "A session's instructor can't be an attendee"
      else Except.ok ()

/-- A committed write replacing the session state: the `api.constrains`
hook runs on the written record inside the transaction; if it raises, the
transaction aborts and no new state is committed. -/
def write_session (_prev upd : Session) : Except String Session :=
  match check_instructor_not_in_attendees upd with
  | Except.error e => Except.error e
  | Except.ok _ => Except.ok upd

/-- The state visible after the transaction of `write_session` ends:
the new record when the write went through, the prior committed state
when it was rejected (transactional all-or-nothing). -/
def committed_state (prev upd : Session) : Session :=
  match write_session prev upd with
  | Except.ok s => s
  | Except.error _ => prev

/-- A base session record used to build concrete instances. -/
def session0 : Session :=
  { name := "s0", start_date := some 0, duration := 0, seats := 0,
    active := true, color := 0, instructor_id := none, course_id := 1,
    attendee_ids := ∅, end_date := none }

/-! ### Course: duplication and SQL constraints -/

/-- The fields of an `openacademy.course` record that the claims touch. -/
structure Course where
  name : String
  description : Option String
deriving DecidableEq

/-- One element of a PostgreSQL `LIKE` pattern after escape resolution:
`any` is `%` (any, possibly empty, character sequence), `one` is `_`
(exactly one character), `lit c` matches the character `c` literally
(either a plain character or one preceded by the default escape
character `\`), and `bad` stands for PostgreSQL's "LIKE pattern must not
end with escape character" error, which no string matches. -/
inductive LikeTok where
  | any : LikeTok
  | one : LikeTok
  | lit : Char → LikeTok
  | bad : LikeTok
deriving DecidableEq

/-- Lexing of a PostgreSQL `LIKE` pattern with the default escape
character `\`: the escape character makes the following character
literal (whatever it is), and a pattern ending in a lone escape
character is an error in PostgreSQL, represented by the `bad` token. -/
def like_lex : List Char → List LikeTok
  | [] => []
  | [p] =>
      if p = '%' then [LikeTok.any]
      else if p = '_' then [LikeTok.one]
      else if p = '\\' then [LikeTok.bad]
      else [LikeTok.lit p]
  | p :: q :: ps =>
      if p = '%' then LikeTok.any :: like_lex (q :: ps)
      else if p = '_' then LikeTok.one :: like_lex (q :: ps)
      else if p = '\\' then LikeTok.lit q :: like_lex ps
      else LikeTok.lit p :: like_lex (q :: ps)

/-- Case-sensitive matching of a lexed `LIKE` pattern against a string. -/
def tok_match : List LikeTok → List Char → Bool
  | [], s => s.isEmpty
  | LikeTok.any :: ts, s => s.tails.any (fun t => tok_match ts t)
  | LikeTok.one :: ts, s =>
      match s with
      | [] => false
      | _ :: s' => tok_match ts s'
  | LikeTok.lit e :: ts, s =>
      match s with
      | [] => false
      | c :: s' => (e == c) && tok_match ts s'
  | LikeTok.bad :: _, _ => false

/-- SQL `LIKE` on strings, the semantics the PostgreSQL database gives to
the `'=like'` operator of `search_count`. -/
def sql_like (pat s : String) : Bool := tok_match (like_lex pat.toList) s.toList

/-- The pattern `Course.copy` hands to `search_count` with `'=like'`:
`u"Copy of {}%".format(self.name)`.  The source name is interpolated
verbatim, without escaping `LIKE` wildcards. -/
def copy_pattern (name : String) : String := "Copy of " ++ name ++ "%"

/-- The `copied_count` of `Course.copy`: the number of existing course names
the database matches against the pattern. -/
def copied_count (existing : List String) (name : String) : Nat :=
  (existing.filter (fun n => sql_like (copy_pattern name) n)).length

/-- Modelled from the spec: the count the spec describes, a literal
(wildcard-safe) prefix match of each existing name against
`"Copy of " ++ name`. -/
def literal_copied_count (existing : List String) (name : String) : Nat :=
  (existing.filter
    (fun n => (("Copy of " ++ name).toList).isPrefixOf n.toList)).length

/-- The `new_name` computed by `Course.copy`. -/
def new_copy_name (existing : List String) (name : String) : String :=
  let c := copied_count existing name
  if c = 0 then "Copy of " ++ name
  else "Copy of " ++ name ++ " (" ++ toString c ++ ")"

/-- Model of `Course.copy`'s treatment of its `default` mapping:
`default = dict(default or {})` then `default['name'] = new_name`, so the
computed name overrides any caller-supplied `'name'` entry.  The mapping
is modelled as a partial function from keys to values. -/
def copy_defaults (existing : List String) (name : String)
    (default : String → Option String) : String → Option String :=
  fun k => if k = "name" then some (new_copy_name existing name) else default k

/-- The constraint `CHECK(name != description)` under SQL three-valued logic: a `NULL`
description passes the check. -/
def check_name_description (c : Course) : Bool :=
  match c.description with
  | none => true
  | some d => c.name != d

/-- The constraint `UNIQUE(name)` against the already committed rows. -/
def check_name_unique (t : List Course) (c : Course) : Bool :=
  t.all (fun r => r.name != c.name)

/-- Committing the creation of a Course row: the database applies the two
`_sql_constraints` (with their declared messages) before the row is added. -/
def insert_course (t : List Course) (c : Course) : Except String (List Course) :=
  if check_name_description c then
    if check_name_unique t c then Except.ok (t ++ [c])
    else Except.error "The course title must be unique"
  else Except.error "The title of the course should not be the description"

/-- The invariant the constraints maintain on the committed Course table. -/
def course_invariant (t : List Course) : Prop :=
  (t.map Course.name).Nodup ∧ ∀ c ∈ t, c.description ≠ some c.name

/-- A sample session used to instantiate the theorems below. -/
def session_seats : Session :=
  { session0 with seats := 4, attendee_ids := {1, 2} }

/-- A sample session with a negative capacity. -/
def session_neg_seats : Session :=
  { session0 with seats := -2, attendee_ids := {1} }

/-! ### Theorems -/

/-- Claim C9: For every Session, the computed `hours` equals `duration * 24`,
and writing `hours = h` through the inverse yields `duration = h / 24`;
the two computations are mutually inverse over the field's numeric domain. -/
theorem c9_hours_duration_inverse (r : Session) (h : ℚ) :
    get_hours r = r.duration * 24 ∧
    (set_hours r h).duration = h / 24 ∧
    get_hours (set_hours r h) = h ∧
    (set_hours r (get_hours r)).duration = r.duration := by
  refine ⟨rfl, rfl, ?_, ?_⟩
  · show h / 24 * 24 = h
    exact div_mul_cancel₀ h (by norm_num)
  · show r.duration * 24 / 24 = r.duration
    exact mul_div_cancel_right₀ r.duration (by norm_num)

/-- Claim C6: For every Session, `taken_seats` is `0.0` whenever `seats = 0`
regardless of the attendee count (no division by zero happens), and equals
`100 * attendees_count / seats` whenever `seats > 0`. -/
theorem c6_taken_seats (r : Session) :
    (r.seats = 0 → taken_seats r = 0) ∧
    (0 < r.seats →
      taken_seats r = 100 * (get_attendees_count r : ℚ) / (r.seats : ℚ)) := by
  constructor
  · intro h
    simp [taken_seats, h]
  · intro h
    exact if_neg (by omega)

/-- Witness for C6 at a concrete session with 4 seats and 2 attendees. -/
theorem c6_taken_seats_witness :
    taken_seats session_seats =
      100 * (get_attendees_count session_seats : ℚ) / ((session_seats.seats : Int) : ℚ) :=
  (c6_taken_seats session_seats).2 (by decide)

/-- Claim C10: For every Session with `seats < 0` the zero-seats guard does not
fire (Python falsiness only matches `0`), so `taken_seats` is computed as
`100 * attendees_count / seats`, which is negative as soon as the session
has at least one attendee; negative capacities are not clamped to `0.0`. -/
theorem c10_negative_seats (r : Session) (h : r.seats < 0) :
    taken_seats r = 100 * (get_attendees_count r : ℚ) / (r.seats : ℚ) ∧
    (1 ≤ get_attendees_count r → taken_seats r < 0) := by
  have hne : r.seats ≠ 0 := by omega
  have hform : taken_seats r = 100 * (get_attendees_count r : ℚ) / (r.seats : ℚ) :=
    if_neg hne
  refine ⟨hform, fun hc => ?_⟩
  rw [hform]
  apply div_neg_of_pos_of_neg
  · have : (1 : ℚ) ≤ (get_attendees_count r : ℚ) := by exact_mod_cast hc
    linarith
  · exact_mod_cast h

/-- Witness for C10 at a concrete session with `seats = -2` and one attendee. -/
theorem c10_negative_seats_witness :
    taken_seats session_neg_seats = 100 * (get_attendees_count session_neg_seats : ℚ) /
        ((session_neg_seats.seats : Int) : ℚ) ∧
    taken_seats session_neg_seats < 0 := by
  have h := c10_negative_seats session_neg_seats (by decide)
  exact ⟨h.1, h.2 (by decide)⟩

/-- Claim C7: A committed write that sets `instructor_id` to a partner that is
also a member of `attendee_ids` fails with the blocking validation error
"A session's instructor can't be an attendee", and the prior committed state
of the Session is unchanged by the rejected write. -/
theorem c7_instructor_not_attendee (prev upd : Session) (i : PartnerId)
    (h1 : upd.instructor_id = some i) (h2 : i ∈ upd.attendee_ids) :
    write_session prev upd = Except.error "A session's instructor can't be an attendee" ∧
    committed_state prev upd = prev := by
  have hchk : check_instructor_not_in_attendees upd =
      Except.error "A session's instructor can't be an attendee" := by
    unfold check_instructor_not_in_attendees
    rw [h1]
    exact if_pos h2
  have hw : write_session prev upd =
      Except.error "A session's instructor can't be an attendee" := by
    unfold write_session
    rw [hchk]
  refine ⟨hw, ?_⟩
  unfold committed_state
  rw [hw]

/-- Witness for C7: partner 7 is both instructor and attendee. -/
theorem c7_instructor_not_attendee_witness :
    write_session session0 { session0 with instructor_id := some 7, attendee_ids := {7} } =
      Except.error "A session's instructor can't be an attendee" ∧
    committed_state session0 { session0 with instructor_id := some 7, attendee_ids := {7} } =
      session0 :=
  c7_instructor_not_attendee session0
    { session0 with instructor_id := some 7, attendee_ids := {7} } 7 rfl (by decide)

/-- The day the time point "`q` days after the epoch, minus one second"
falls in is `⌈q⌉ - 1`, provided `q` is a whole multiple of `1/100` of a
day (the resolution of the `duration` field, declared `digits=(6, 2)`). -/
lemma floor_sub_one_second (k : Int) :
    ⌊(k : ℚ) / 100 - 1 / 86400⌋ = ⌈(k : ℚ) / 100⌉ - 1 := by
  set q : ℚ := (k : ℚ) / 100 with hq
  set m : Int := ⌈q⌉ with hm
  have h1 : q ≤ (m : ℚ) := Int.le_ceil q
  have h2 : (m : ℚ) < q + 1 := Int.ceil_lt_add_one q
  have key : (1 : ℚ) / 100 ≤ q - (m : ℚ) + 1 := by
    have hj : ((k - 100 * m + 100 : Int) : ℚ) = 100 * (q - (m : ℚ) + 1) := by
      rw [hq]
      push_cast
      ring
    have hpos : (0 : ℚ) < ((k - 100 * m + 100 : Int) : ℚ) := by
      rw [hj]
      linarith
    have hzpos : (0 : Int) < k - 100 * m + 100 := by exact_mod_cast hpos
    have hone : (1 : ℚ) ≤ ((k - 100 * m + 100 : Int) : ℚ) := by
      exact_mod_cast hzpos
    rw [hj] at hone
    linarith
  rw [Int.floor_eq_iff]
  constructor
  · push_cast
    linarith
  · push_cast
    linarith

/-- Closed form of `_get_end_date` when both guards pass: the end date is
`start_date + ⌈duration⌉ - 1`, for durations at the field's resolution. -/
lemma get_end_date_formula (r : Session) (sd k : Int) (hs : r.start_date = some sd)
    (hk : r.duration = (k : ℚ) / 100) (h0 : k ≠ 0) :
    get_end_date r = some (sd + ⌈r.duration⌉ - 1) := by
  have hd : r.duration ≠ 0 := by
    rw [hk]
    intro hc
    apply h0
    have : (k : ℚ) = 0 := by
      field_simp at hc
      exact_mod_cast hc
    exact_mod_cast this
  unfold get_end_date
  rw [hs]
  show (if r.duration = 0 then some sd
      else some (datetimeToDate (dateToDatetime sd + timedelta r.duration (-1)))) =
    some (sd + ⌈r.duration⌉ - 1)
  rw [if_neg hd]
  congr 1
  unfold datetimeToDate dateToDatetime timedelta
  have harith : ((sd : ℚ) * 86400 + (r.duration * 86400 + -1)) / 86400 =
      (sd : ℚ) + (r.duration - 1 / 86400) := by
    field_simp
    ring
  rw [harith, Int.floor_int_add, hk, floor_sub_one_second k, ← hk]
  omega

/-- Claim C2: For every Session (`duration` at the field's declared
resolution of `1/100` of a day), the forward computation yields
`end_date = start_date` whenever `start_date` or `duration` is absent
(absence of a numeric field is Python falsiness, i.e. the value `0`), and
otherwise yields the date of "`start_date` plus `duration` days minus one
time unit", which is `start_date + ⌈duration⌉ - 1`; in particular a one-day
session starting Monday ends Monday and a 5-day session starting Monday
ends Friday, four days later. -/
theorem c2_get_end_date (r : Session) (k : Int) (hk : r.duration = (k : ℚ) / 100) :
    (r.start_date = none → get_end_date r = none) ∧
    (k = 0 → get_end_date r = r.start_date) ∧
    (∀ sd : Int, r.start_date = some sd → k ≠ 0 →
      get_end_date r = some (sd + ⌈r.duration⌉ - 1)) ∧
    (∀ sd : Int, r.start_date = some sd → k = 100 → get_end_date r = some sd) ∧
    (∀ sd : Int, r.start_date = some sd → k = 500 → get_end_date r = some (sd + 4)) := by
  refine ⟨?_, ?_, ?_, ?_, ?_⟩
  · intro h
    unfold get_end_date
    rw [h]
  · intro h
    have hd : r.duration = 0 := by
      rw [hk, h]
      norm_num
    unfold get_end_date
    cases hsd : r.start_date with
    | none => rfl
    | some sd =>
        show (if r.duration = 0 then some sd
            else some (datetimeToDate (dateToDatetime sd + timedelta r.duration (-1)))) =
          some sd
        rw [if_pos hd]
  · intro sd hs h0
    exact get_end_date_formula r sd k hs hk h0
  · intro sd hs h100
    rw [get_end_date_formula r sd k hs hk (by omega)]
    have : ⌈r.duration⌉ = 1 := by
      rw [hk, h100]
      norm_num
    rw [this]
    congr 1
    omega
  · intro sd hs h500
    rw [get_end_date_formula r sd k hs hk (by omega)]
    have : ⌈r.duration⌉ = 5 := by
      rw [hk, h500]
      norm_num
    rw [this]
    congr 1
    omega

/-- A sample session starting at day 10 with a 5-day duration. -/
def session_five_days : Session :=
  { session0 with start_date := some 10, duration := (500 : ℚ) / 100 }

/-- Witness for C2: a 5-day session starting at day 10 ends at day 14. -/
theorem c2_get_end_date_witness :
    get_end_date session_five_days = some (10 + 4) :=
  (c2_get_end_date session_five_days 500 rfl).2.2.2.2 10 rfl rfl

/-- Claim C3: The inverse computation triggered by a direct write to
`end_date` leaves the record unchanged when `start_date` or `end_date` is
absent, and otherwise sets `duration = (end_date - start_date) + 1` in
whole days, touching no other field. -/
theorem c3_set_end_date (r : Session) :
    (r.start_date = none → set_end_date r = r) ∧
    (r.end_date = none → set_end_date r = r) ∧
    (∀ sd ed : Int, r.start_date = some sd → r.end_date = some ed →
      (set_end_date r).duration = ((ed - sd : Int) : ℚ) + 1 ∧
      (set_end_date r).start_date = r.start_date ∧
      (set_end_date r).end_date = r.end_date ∧
      (set_end_date r).name = r.name ∧
      (set_end_date r).seats = r.seats ∧
      (set_end_date r).attendee_ids = r.attendee_ids ∧
      (set_end_date r).instructor_id = r.instructor_id) := by
  refine ⟨?_, ?_, ?_⟩
  · intro h
    unfold set_end_date
    rw [h]
  · intro h
    unfold set_end_date
    rw [h]
    cases r.start_date <;> rfl
  · intro sd ed hs he
    unfold set_end_date
    rw [hs, he]
    exact ⟨rfl, rfl, rfl, rfl, rfl, rfl, rfl⟩

/-- A sample session spanning days 0 through 4 inclusive. -/
def session_week : Session :=
  { session0 with start_date := some 0, end_date := some 4 }

/-- Witness for C3: writing `end_date = 4` on a session starting at day 0
sets the duration to 5 days. -/
theorem c3_set_end_date_witness :
    (set_end_date session_week).duration = ((4 - 0 : Int) : ℚ) + 1 ∧
    (set_end_date session_week).start_date = session_week.start_date ∧
    (set_end_date session_week).end_date = session_week.end_date ∧
    (set_end_date session_week).name = session_week.name ∧
    (set_end_date session_week).seats = session_week.seats ∧
    (set_end_date session_week).attendee_ids = session_week.attendee_ids ∧
    (set_end_date session_week).instructor_id = session_week.instructor_id :=
  (c3_set_end_date session_week).2.2 0 4 rfl rfl

/-- Claim C1, counterexample: The round trip duration → end_date → duration is
not self-inverse for every value the `duration` field admits: the admitted
value `d = 0.5` comes back as `1`, and `d = 0` comes back as `1` as well
(`session0` has its `start_date` present, at day 0). -/
theorem c1_round_trip_counterexample :
    duration_round_trip session0 (1 / 2) ≠ 1 / 2 ∧
    duration_round_trip session0 0 ≠ 0 := by
  constructor
  · have h1s : ({ session0 with duration := (1 / 2 : ℚ) } : Session).start_date = some 0 := rfl
    have h1k : ({ session0 with duration := (1 / 2 : ℚ) } : Session).duration =
        ((50 : Int) : ℚ) / 100 := by
      show (1 / 2 : ℚ) = ((50 : Int) : ℚ) / 100
      norm_num
    have h1 := get_end_date_formula _ 0 50 h1s h1k (by omega)
    have hceil : ⌈(1 / 2 : ℚ)⌉ = 1 := by
      rw [Int.ceil_eq_iff]
      constructor <;> norm_num
    have h1' : get_end_date { session0 with duration := (1 / 2 : ℚ) } = some 0 := by
      rw [h1]
      norm_num [hceil]
    simp only [session0] at h1'
    simp only [duration_round_trip, write_duration, set_end_date, session0]
    simp only [h1']
    norm_num
  · have h2 : get_end_date { session0 with duration := (0 : ℚ) } = some 0 := by
      show (if (0 : ℚ) = 0 then some 0
          else some (datetimeToDate (dateToDatetime 0 + timedelta 0 (-1)))) = some 0
      exact if_pos rfl
    simp only [session0] at h2
    simp only [duration_round_trip, write_duration, set_end_date, session0]
    simp only [h2]
    norm_num

/-- Claim C1, amended: For every Session with `start_date` present, setting
`duration = d` for a nonzero *integer* `d`, reading the computed
`end_date`, and writing that same `end_date` back through the inverse
reproduces `duration = d`: the inclusive-day convention is self-inverse
exactly on nonzero whole-day durations. -/
theorem c1_round_trip_integer (r : Session) (sd d : Int)
    (hs : r.start_date = some sd) (hd : d ≠ 0) :
    duration_round_trip r (d : ℚ) = (d : ℚ) := by
  have h1k : ({ r with start_date := some sd, duration := (d : ℚ) } : Session).duration =
      ((100 * d : Int) : ℚ) / 100 := by
    show (d : ℚ) = ((100 * d : Int) : ℚ) / 100
    push_cast
    ring
  have hend : get_end_date { r with start_date := some sd, duration := (d : ℚ) } =
      some (sd + d - 1) := by
    rw [get_end_date_formula _ sd (100 * d) rfl h1k (by omega)]
    have hceil :
        ⌈({ r with start_date := some sd, duration := (d : ℚ) } : Session).duration⌉ = d :=
      Int.ceil_intCast d
    rw [hceil]
  simp only [duration_round_trip, write_duration, set_end_date, hs]
  simp only [hend]
  push_cast
  ring

/-- A sample session starting at day 3. -/
def session_start3 : Session := { session0 with start_date := some 3 }

/-- Witness for the amended C1 at `d = 5`, starting at day 3. -/
theorem c1_round_trip_integer_witness :
    duration_round_trip session_start3 ((5 : Int) : ℚ) = ((5 : Int) : ℚ) :=
  c1_round_trip_integer session_start3 3 5 rfl (by decide)

/-- The map `String.toList` distributes over append (both sides are the
underlying character data). -/
lemma toList_append (s t : String) : (s ++ t).toList = s.toList ++ t.toList := rfl

/-- Lexing a run of plain characters followed by a single trailing `%`:
when none of the characters is a `LIKE` metacharacter (`%`, `_`, or the
escape character `\`), each becomes a literal token and the trailing `%`
becomes the `any` token. -/
lemma like_lex_wildcard_free (lits : List Char)
    (h : ∀ c ∈ lits, c ≠ '%' ∧ c ≠ '_' ∧ c ≠ '\\') :
    like_lex (lits ++ ['%']) = lits.map LikeTok.lit ++ [LikeTok.any] := by
  induction lits with
  | nil =>
      show like_lex ['%'] = [LikeTok.any]
      rfl
  | cons a rest ih =>
      have ha := h a (List.mem_cons_self a rest)
      have hrest : ∀ c ∈ rest, c ≠ '%' ∧ c ≠ '_' ∧ c ≠ '\\' := fun c hc =>
        h c (List.mem_cons_of_mem a hc)
      obtain ⟨q, t, hqt⟩ : ∃ q t, rest ++ ['%'] = q :: t := by
        cases rest with
        | nil => exact ⟨'%', [], rfl⟩
        | cons b r => exact ⟨b, r ++ ['%'], rfl⟩
      rw [List.cons_append, hqt]
      show (if a = '%' then LikeTok.any :: like_lex (q :: t)
          else if a = '_' then LikeTok.one :: like_lex (q :: t)
          else if a = '\\' then LikeTok.lit q :: like_lex t
          else LikeTok.lit a :: like_lex (q :: t)) =
        (a :: rest).map LikeTok.lit ++ [LikeTok.any]
      rw [if_neg ha.1, if_neg ha.2.1, if_neg ha.2.2, ← hqt, ih hrest]
      rfl

/-- A lexed pattern consisting of the single `any` token matches every
string. -/
lemma tok_match_any_true (s : List Char) : tok_match [LikeTok.any] s = true := by
  induction s with
  | nil => rfl
  | cons c s ih =>
      show (c :: s).tails.any (fun t => tok_match [] t) = true
      rw [List.tails_cons, List.any_cons]
      have hs : s.tails.any (fun t => tok_match [] t) = true := ih
      rw [hs]
      exact Bool.or_true _

/-- A lexed pattern made of literal tokens followed by the `any` token
matches exactly the strings having those characters as a prefix. -/
lemma tok_match_lits (lits : List Char) (s : List Char) :
    tok_match (lits.map LikeTok.lit ++ [LikeTok.any]) s = lits.isPrefixOf s := by
  induction lits generalizing s with
  | nil =>
      rw [List.map_nil, List.nil_append, tok_match_any_true, List.isPrefixOf_nil_left]
  | cons a rest ih =>
      cases s with
      | nil =>
          show false = (a :: rest).isPrefixOf []
          rw [List.isPrefixOf_cons_nil]
      | cons c s' =>
          show ((a == c) && tok_match (rest.map LikeTok.lit ++ [LikeTok.any]) s') =
            (a :: rest).isPrefixOf (c :: s')
          rw [List.isPrefixOf_cons₂, ih s']

/-- A name is wildcard-free when it contains no `LIKE` metacharacter:
neither a wildcard (`%`, `_`) nor the escape character `\`. -/
abbrev wildcard_free (s : String) : Prop :=
  ∀ c ∈ s.toList, c ≠ '%' ∧ c ≠ '_' ∧ c ≠ '\\'

/-- Claim C4, counterexample: The count `Course.copy` obtains is not a literal
prefix match for every source name: with one existing Course named
"Copy of ab", copying a Course named "a%" counts it (the `%` of the source
name acts as a wildcard in the `LIKE` pattern), although "Copy of ab" does
not literally start with "Copy of a%". -/
theorem c4_wildcard_counterexample :
    copied_count ["Copy of ab"] "a%" = 1 ∧
    literal_copied_count ["Copy of ab"] "a%" = 0 := by
  decide

/-- Claim C4, amended: The count of existing copies is a case-sensitive SQL
`LIKE` match of existing names against `"Copy of " ++ name ++ "%"`; the
`%`, `_` and `\` characters of the source name are interpolated unescaped
and keep their `LIKE` meaning, so the match is a literal prefix match for
the source names free of those metacharacters. -/
theorem c4_literal_for_wildcard_free (existing : List String) (name : String)
    (h : wildcard_free name) :
    copied_count existing name = literal_copied_count existing name := by
  unfold copied_count literal_copied_count
  congr 1
  apply List.filter_congr
  intro n _
  unfold sql_like copy_pattern
  have htl : ("Copy of " ++ name ++ "%").toList = ("Copy of " ++ name).toList ++ ['%'] := by
    rw [toList_append]
    rfl
  have hlits : ∀ c ∈ ("Copy of " ++ name).toList, c ≠ '%' ∧ c ≠ '_' ∧ c ≠ '\\' := by
    intro c hc
    rw [toList_append] at hc
    rcases List.mem_append.1 hc with hc | hc
    · have hfixed : ∀ c ∈ "Copy of ".toList, c ≠ '%' ∧ c ≠ '_' ∧ c ≠ '\\' := by decide
      exact hfixed c hc
    · exact h c hc
  rw [htl, like_lex_wildcard_free _ hlits, tok_match_lits]

/-- Witness for the amended C4 on the wildcard-free name "Intro". -/
theorem c4_literal_for_wildcard_free_witness :
    wildcard_free "Intro" ∧
    copied_count ["Copy of Intro", "other"] "Intro" =
      literal_copied_count ["Copy of Intro", "other"] "Intro" :=
  ⟨by decide, c4_literal_for_wildcard_free ["Copy of Intro", "other"] "Intro" (by decide)⟩

/-- Claim C5: `Course.copy` merges into the override mapping the name
`"Copy of {name}"` when the prefix-match count is zero and
`"Copy of {name} ({count})"` otherwise, overriding any caller-supplied
name; copying a Course named "Intro" with no matching rows yields
"Copy of Intro", and copying it again yields "Copy of Intro (1)". -/
theorem c5_copy_name_override (existing : List String) (name : String)
    (default : String → Option String) :
    copy_defaults existing name default "name" = some (new_copy_name existing name) ∧
    (copied_count existing name = 0 →
      new_copy_name existing name = "Copy of " ++ name) ∧
    (copied_count existing name ≠ 0 →
      new_copy_name existing name =
        "Copy of " ++ name ++ " (" ++ toString (copied_count existing name) ++ ")") ∧
    new_copy_name [] "Intro" = "Copy of Intro" ∧
    new_copy_name ["Copy of Intro"] "Intro" = "Copy of Intro (1)" := by
  refine ⟨?_, ?_, ?_, ?_, ?_⟩
  · simp [copy_defaults]
  · intro h
    simp [new_copy_name, h]
  · intro h
    simp [new_copy_name, h]
  · decide
  · decide

/-- Witness for C5: the caller-supplied name is overridden and the
zero-count branch produces `"Copy of Intro"`. -/
theorem c5_copy_name_override_witness :
    copy_defaults ["Copy of Intro"] "Intro" (fun _ => some "Caller") "name" =
      some (new_copy_name ["Copy of Intro"] "Intro") ∧
    new_copy_name ["other"] "Intro" = "Copy of " ++ "Intro" :=
  ⟨(c5_copy_name_override ["Copy of Intro"] "Intro" (fun _ => some "Caller")).1,
   (c5_copy_name_override ["other"] "Intro" (fun _ => none)).2.1 (by decide)⟩

/-- Inverting a successful Course insertion: both constraints passed and
the row was appended. -/
lemma insert_course_ok (t t' : List Course) (c : Course)
    (hok : insert_course t c = Except.ok t') :
    check_name_description c = true ∧ check_name_unique t c = true ∧ t' = t ++ [c] := by
  unfold insert_course at hok
  by_cases h1 : check_name_description c = true
  · rw [if_pos h1] at hok
    by_cases h2 : check_name_unique t c = true
    · rw [if_pos h2] at hok
      refine ⟨h1, h2, ?_⟩
      injection hok with h
      exact h.symm
    · rw [if_neg h2] at hok
      exact Except.noConfusion hok
  · rw [if_neg h1] at hok
    exact Except.noConfusion hok

/-- Claim C8: The Course `_sql_constraints` keep every committed table with
globally unique names and `name` different from `description`: a
successful insertion preserves the invariant, inserting a Course whose
name equals its description fails with the declared message, and, after a
Course is committed, inserting a second Course with the same name fails
with the uniqueness message. -/
theorem c8_course_constraints :
    (∀ (t t' : List Course) (c : Course), course_invariant t →
      insert_course t c = Except.ok t' → course_invariant t') ∧
    (∀ (t : List Course) (c : Course), c.description = some c.name →
      insert_course t c =
        Except.error "The title of the course should not be the description") ∧
    (∀ (t t' : List Course) (c c2 : Course), insert_course t c = Except.ok t' →
      c2.name = c.name → check_name_description c2 = true →
      insert_course t' c2 = Except.error "The course title must be unique") := by
  refine ⟨?_, ?_, ?_⟩
  · intro t t' c hinv hok
    obtain ⟨h1, h2, ht'⟩ := insert_course_ok t t' c hok
    subst ht'
    have huniq : ∀ r ∈ t, r.name ≠ c.name := by
      intro r hr
      have := List.all_eq_true.1 h2 r hr
      simpa using this
    constructor
    · rw [List.map_append, List.nodup_append]
      refine ⟨hinv.1, List.nodup_singleton _, ?_⟩
      intro a ha hb
      have hac : a = c.name := by simpa using hb
      obtain ⟨r, hr, hrname⟩ := List.mem_map.1 ha
      exact huniq r hr (hrname.trans hac)
    · intro x hx
      rcases List.mem_append.1 hx with hx | hx
      · exact hinv.2 x hx
      · have hxc : x = c := by simpa using hx
        subst hxc
        unfold check_name_description at h1
        intro hcon
        rw [hcon] at h1
        simp at h1
  · intro t c hdesc
    have hfalse : check_name_description c = false := by
      unfold check_name_description
      rw [hdesc]
      exact bne_self_eq_false _
    unfold insert_course
    rw [if_neg (by simp [hfalse])]
  · intro t t' c c2 hok hname hdesc2
    obtain ⟨h1, h2, ht'⟩ := insert_course_ok t t' c hok
    subst ht'
    have hu : check_name_unique (t ++ [c]) c2 = false := by
      unfold check_name_unique
      rw [List.all_append]
      have hc : [c].all (fun r => r.name != c2.name) = false := by
        simp [hname]
      rw [hc, Bool.and_false]
    unfold insert_course
    rw [if_pos hdesc2, if_neg (by simp [hu])]

/-- A concrete Course row. -/
def course_algebra : Course := { name := "Algebra", description := none }

/-- Witness for C8: a second "Algebra" is rejected for uniqueness, and a
Course whose name equals its description is rejected by the check. -/
theorem c8_course_constraints_witness :
    insert_course [course_algebra] course_algebra =
      Except.error "The course title must be unique" ∧
    insert_course [] { name := "A", description := some "A" } =
      Except.error "The title of the course should not be the description" :=
  ⟨c8_course_constraints.2.2 [] [course_algebra] course_algebra course_algebra rfl rfl rfl,
   c8_course_constraints.2.1 [] { name := "A", description := some "A" } rfl⟩

end OpenAcademy
